import Mathlib

/-!
Shallow embedding of the rate-limit core of the Pincer repository.

Embedded source files:
* `src/pincer/core/ratelimiter.py` — the `Bucket` dataclass and the
  `RateLimiter` class with its two operations `save_response_bucket`
  (called `observe`/`recordHeaders` in the specification) and
  `wait_until_not_ratelimited` (called `acquire`).
* `src/pyscord/core/http/__init__.py` — `HttpApi.get`.

Modelling conventions: Python `float` timestamps and durations are embedded
as `Int` values in an arbitrarily fine time unit — every property at stake
is ordered-ring arithmetic on these values, never divisibility or density;
Python `int` is `Int`; Python dictionaries are functions into `Option`; the
wall clock `time()` is passed explicitly as a `now` argument; an
`await sleep(d)` is represented in the operation's result by `some d` (the
suspension duration), while returning without sleeping yields `none`, and
the unguarded dictionary subscript that can raise `KeyError` yields a
distinguished `keyError` outcome.
-/

/-- The `Bucket` dataclass of `ratelimiter.py`: the last known state of one
server-assigned rate-limit bucket. -/
structure Bucket where
  limit : Int
  remaining : Int
  reset : Int
  reset_after : Int
  time_cached : Int
deriving DecidableEq

/-- The rate-limit-relevant part of a response header map. `bucket` is the
optional `X-RateLimit-Bucket` entry (`none` when the header map has no such
entry); the remaining fields are the values the Python code reads with
`header["X-RateLimit-Limit"]` etc., already converted by `int(...)` /
`float(...)`. -/
structure Header where
  bucket : Option String
  limit : Int
  remaining : Int
  reset : Int
  reset_after : Int
deriving DecidableEq

/-- A route key: the `(endpoint, method)` pair used as key of `bucket_map`.
The Python `method` is an `HttpCallable`; only its identity matters here, so
it is embedded as a string. -/
abbrev Route := String × String

/-- The mutable state of the `RateLimiter` class: `bucket_map` maps a route
to a bucket id, `buckets` maps a bucket id to its `Bucket` record. -/
@[ext]
structure RateLimiter where
  bucket_map : Route → Option String
  buckets : String → Option Bucket

/-- The state produced by `RateLimiter.__init__`: both dictionaries empty. -/
def RateLimiter.init : RateLimiter :=
  { bucket_map := fun _ => none, buckets := fun _ => none }

/-- The walrus-guard `if bucket_id := header.get("X-RateLimit-Bucket")`:
Python truthiness makes both an absent entry and an empty string falsy. -/
def Header.bucketId (h : Header) : Option String :=
  match h.bucket with
  | none => none
  | some s => if s = "" then none else some s

/-- Embeds `RateLimiter.save_response_bucket`. If the header map carries a
(truthy) bucket id, it overwrites `bucket_map[endpoint, method]` with that id
and overwrites `buckets[bucket_id]` with a fresh `Bucket` built from the
header values and `time_cached = time()` (the `now` argument); otherwise it
does nothing. -/
def RateLimiter.save_response_bucket (st : RateLimiter) (endpoint method : String)
    (h : Header) (now : Int) : RateLimiter :=
  match h.bucketId with
  | none => st
  | some bid =>
    { bucket_map := fun r => if r = (endpoint, method) then some bid else st.bucket_map r
      buckets := fun b =>
        if b = bid then
          some { limit := h.limit, remaining := h.remaining, reset := h.reset,
                 reset_after := h.reset_after, time_cached := now }
        else st.buckets b }

/-- Result of one `wait_until_not_ratelimited` call: `ret none` when the
call returns without sleeping, `ret (some d)` when it executes
`await sleep(d)` and then returns, `keyError` when the unguarded subscript
`self.buckets[bucket_id]` would raise `KeyError`. -/
inductive AcquireOutcome where
  | ret (sleep : Option Int)
  | keyError
deriving DecidableEq

/-- Embeds `RateLimiter.wait_until_not_ratelimited`. Note the sleep duration
the code computes is `cur_time - bucket.time_cached + bucket.reset_after`. -/
def RateLimiter.wait_until_not_ratelimited (st : RateLimiter) (endpoint method : String)
    (now : Int) : AcquireOutcome :=
  match st.bucket_map (endpoint, method) with
  | none => .ret none
  | some bid =>
    match st.buckets bid with
    | none => .keyError
    | some bucket =>
      if bucket.remaining = 0 then
        .ret (some (now - bucket.time_cached + bucket.reset_after))
      else
        .ret none

/-- One call against a `RateLimiter` instance, used to describe the states
reachable through the public interface. -/
inductive Call where
  | observe (endpoint method : String) (h : Header) (now : Int)
  | acquire (endpoint method : String) (now : Int)

/-- Effect of one call on the state: `observe` delegates to
`save_response_bucket`; `acquire` (`wait_until_not_ratelimited`) never
mutates the dictionaries. -/
def RateLimiter.step (st : RateLimiter) : Call → RateLimiter
  | .observe e m h t => st.save_response_bucket e m h t
  | .acquire _ _ _ => st

/-- State reached from a fresh `RateLimiter` after a sequence of calls. -/
def runCalls (cs : List Call) : RateLimiter :=
  cs.foldl RateLimiter.step RateLimiter.init

/-- Modelled from the spec: the `GlobalLockoutState` record of §3 and the
`GlobalLimitGuard` component of §4.2. No application-wide lockout exists in
the source under `src/` (`wait_until_not_ratelimited` consults no global
state), so the guard is taken from the spec's words: a single shared
`{ active : bool, until : timestamp }`. -/
structure GlobalLimitGuard where
  active : Bool
  gUntil : Int
deriving DecidableEq

/-- Modelled from the spec: `isActive() -> bool`: `now < until`, with the
flag that `trigger` sets. -/
def GlobalLimitGuard.isActive (g : GlobalLimitGuard) (now : Int) : Bool :=
  g.active && decide (now < g.gUntil)

/-- Modelled from the spec: `remaining() -> duration`: `max(0, until - now)`. -/
def GlobalLimitGuard.remaining (g : GlobalLimitGuard) (now : Int) : Int :=
  max 0 (g.gUntil - now)

/-- Modelled from the spec: `RateGate.acquire(route)` of §4.3, absent from
the source under `src/`. Returns the absolute time at which the caller
resumes. Step 1: if the guard is active, suspend for `remaining()`; at the
resumed clock `now + max 0 (until - now) = until` the guard reads inactive
(`until < until` fails), so the spec's re-check loop ends after this single
iteration and is unrolled here. Step 2: resolve the route's bucket; with no
bucket, or with `remaining > 0`, return immediately; with `remaining == 0`
suspend for `max(0, cached_at + reset_after - now)` and return. -/
def RateGate.acquire (g : GlobalLimitGuard) (st : RateLimiter)
    (endpoint method : String) (now : Int) : Int :=
  let t1 := if g.isActive now then now + g.remaining now else now
  match st.bucket_map (endpoint, method) with
  | none => t1
  | some bid =>
    match st.buckets bid with
    | none => t1
    | some bucket =>
      if bucket.remaining = 0 then t1 + max 0 (bucket.time_cached + bucket.reset_after - t1)
      else t1

/-- One HTTP response as seen by `HttpApi.get`: its status code and its
(opaque) JSON body. -/
structure Response where
  status_code : Int
  json : String
deriving DecidableEq

/-- Embeds `HttpApi.get` of `src/pyscord/core/http/__init__.py`. The remote
server is modelled as the sequence of responses it would give to successive
attempts of the same call. The code performs exactly one `requests.get`
(attempt `0`); on status `200` it returns the parsed body, otherwise it
raises `Exception(res.status_code)`, embedded as `.error status`. -/
def HttpApi.get (server : Nat → Response) : Except Int String :=
  let res := server 0
  if res.status_code = 200 then .ok res.json else .error res.status_code

/-- Invariant: every bucket id stored as a value of `bucket_map` is a key of
`buckets`. -/
def RateLimiter.MappedIdsStored (st : RateLimiter) : Prop :=
  ∀ r bid, st.bucket_map r = some bid → (st.buckets bid).isSome

/-- Property of a header map: the server-reported remaining count is between
`0` and the reported limit. -/
def Header.WithinLimit (h : Header) : Prop :=
  0 ≤ h.remaining ∧ h.remaining ≤ h.limit

/-- Property of a call: any header it supplies satisfies
`Header.WithinLimit`. -/
def Call.WithinLimit : Call → Prop
  | .observe _ _ h _ => h.WithinLimit
  | .acquire _ _ _ => True

/-- Property of a state: every stored bucket record has
`0 ≤ remaining ≤ limit`. -/
def RateLimiter.RemainingWithinLimit (st : RateLimiter) : Prop :=
  ∀ bid b, st.buckets bid = some b → 0 ≤ b.remaining ∧ b.remaining ≤ b.limit

/-! Helper lemmas about `save_response_bucket` and the reachable-state
invariants. -/

/-- With no (truthy) bucket id in the headers, `save_response_bucket`
returns the state unchanged. -/
lemma RateLimiter.save_response_bucket_of_no_id (st : RateLimiter) (e m : String)
    (h : Header) (t : Int) (hb : h.bucketId = none) :
    st.save_response_bucket e m h t = st := by
  unfold RateLimiter.save_response_bucket
  rw [hb]

/-- Route lookup in the state after `save_response_bucket` with bucket id
`bid`: the observed route now maps to `bid`, every other route keeps its
previous mapping. -/
lemma RateLimiter.save_bucket_map_lookup (st : RateLimiter) (e m : String) (h : Header)
    (t : Int) (bid : String) (hb : h.bucketId = some bid) (r : Route) :
    (st.save_response_bucket e m h t).bucket_map r =
      if r = (e, m) then some bid else st.bucket_map r := by
  unfold RateLimiter.save_response_bucket
  rw [hb]

/-- Record lookup in the state after `save_response_bucket` with bucket id
`bid`: the record for `bid` is rebuilt from the headers and the call time,
every other record is untouched. -/
lemma RateLimiter.save_buckets_lookup (st : RateLimiter) (e m : String) (h : Header)
    (t : Int) (bid : String) (hb : h.bucketId = some bid) (b : String) :
    (st.save_response_bucket e m h t).buckets b =
      if b = bid then
        some { limit := h.limit, remaining := h.remaining, reset := h.reset,
               reset_after := h.reset_after, time_cached := t }
      else st.buckets b := by
  unfold RateLimiter.save_response_bucket
  rw [hb]

/-- The invariant `MappedIdsStored` is preserved by `save_response_bucket`:
the only mapping it can add points at the record it stores in the same
call. -/
lemma RateLimiter.save_mappedIdsStored (st : RateLimiter) (e m : String) (h : Header)
    (t : Int) (hst : st.MappedIdsStored) :
    (st.save_response_bucket e m h t).MappedIdsStored := by
  rcases hb : h.bucketId with _ | bid
  · rw [RateLimiter.save_response_bucket_of_no_id st e m h t hb]
    exact hst
  · intro r bid' hr
    rw [RateLimiter.save_bucket_map_lookup st e m h t bid hb] at hr
    rw [RateLimiter.save_buckets_lookup st e m h t bid hb]
    by_cases hbb : bid' = bid
    · simp [hbb]
    · rw [if_neg hbb]
      by_cases hrr : r = (e, m)
      · rw [if_pos hrr] at hr
        exact absurd (Option.some.inj hr).symm hbb
      · rw [if_neg hrr] at hr
        exact hst r bid' hr

/-- One call of either kind preserves `MappedIdsStored`. -/
lemma RateLimiter.step_mappedIdsStored (st : RateLimiter) (c : Call)
    (hst : st.MappedIdsStored) : (st.step c).MappedIdsStored := by
  cases c with
  | observe e m h t => exact st.save_mappedIdsStored e m h t hst
  | acquire e m t => exact hst

/-- A whole call sequence preserves `MappedIdsStored`. -/
lemma foldl_step_mappedIdsStored (cs : List Call) :
    ∀ st : RateLimiter, st.MappedIdsStored →
      (cs.foldl RateLimiter.step st).MappedIdsStored := by
  induction cs with
  | nil => intro st hst; simpa using hst
  | cons c cs ih =>
    intro st hst
    rw [List.foldl_cons]
    exact ih _ (st.step_mappedIdsStored c hst)

/-- Every state reachable through the public interface satisfies
`MappedIdsStored`. -/
lemma runCalls_mappedIdsStored (cs : List Call) : (runCalls cs).MappedIdsStored := by
  apply foldl_step_mappedIdsStored
  intro r bid hr
  exact absurd hr (by simp [RateLimiter.init])

/-- A header within its limit keeps `RemainingWithinLimit` across
`save_response_bucket`. -/
lemma RateLimiter.save_remainingWithinLimit (st : RateLimiter) (e m : String) (h : Header)
    (t : Int) (hst : st.RemainingWithinLimit) (hh : h.WithinLimit) :
    (st.save_response_bucket e m h t).RemainingWithinLimit := by
  rcases hb : h.bucketId with _ | bid
  · rw [RateLimiter.save_response_bucket_of_no_id st e m h t hb]
    exact hst
  · intro b bk hbk
    rw [RateLimiter.save_buckets_lookup st e m h t bid hb] at hbk
    by_cases hbb : b = bid
    · rw [if_pos hbb] at hbk
      cases Option.some.inj hbk
      exact hh
    · rw [if_neg hbb] at hbk
      exact hst b bk hbk

/-- A call within its limit preserves `RemainingWithinLimit`. -/
lemma RateLimiter.step_remainingWithinLimit (st : RateLimiter) (c : Call)
    (hst : st.RemainingWithinLimit) (hc : c.WithinLimit) :
    (st.step c).RemainingWithinLimit := by
  cases c with
  | observe e m h t => exact st.save_remainingWithinLimit e m h t hst hc
  | acquire e m t => exact hst

/-- A call sequence whose headers stay within their limits preserves
`RemainingWithinLimit`. -/
lemma foldl_step_remainingWithinLimit (cs : List Call) :
    ∀ st : RateLimiter, st.RemainingWithinLimit → (∀ c ∈ cs, c.WithinLimit) →
      (cs.foldl RateLimiter.step st).RemainingWithinLimit := by
  induction cs with
  | nil => intro st hst _; simpa using hst
  | cons c cs ih =>
    intro st hst hcs
    rw [List.foldl_cons]
    exact ih _ (st.step_remainingWithinLimit c hst (hcs c (List.mem_cons_self c cs)))
      (fun c' hc' => hcs c' (List.mem_cons_of_mem c hc'))

/-! Claim theorems. -/

/-- Claim C1. The claim states that for a route whose bucket record has
`remaining == 0`, acquire suspends for exactly
`max(0, cached_at + reset_after - now)`. The code instead sleeps
`cur_time - bucket.time_cached + bucket.reset_after`. At the failing input —
a record cached at time `0` with `reset_after = 2` and `remaining = 0`,
acquired at `now = 1` — the code sleeps `1 - 0 + 2 = 3`, while the claimed
duration is `max 0 (0 + 2 - 1) = 1`: the code's wait grows with the time
already elapsed instead of shrinking, contradicting its own log line
"Waiting for %ss until rate limit for bucket %s is over". -/
theorem claim_C1_sleep_formula :
    (runCalls [.observe "ch" "GET"
        { bucket := some "b1", limit := 5, remaining := 0, reset := 9, reset_after := 2 } 0]
      ).wait_until_not_ratelimited "ch" "GET" 1 = .ret (some 3) ∧
    max (0:Int) (0 + 2 - 1) = 1 ∧ (3:Int) ≠ 1 :=
  ⟨by decide, by decide, by decide⟩

/-- Claim C2 (modelled from the spec, no global lockout exists in the
source): while the GlobalLimitGuard is active, acquire on every route — over
every registry state, so in particular a route whose own bucket has
`remaining > 0` and a route with no bucket at all — resumes no earlier than
the global deadline `until`. -/
theorem claim_C2_global_lockout_dominates (g : GlobalLimitGuard) (st : RateLimiter)
    (e m : String) (now : Int) (hact : g.isActive now = true) :
    g.gUntil ≤ RateGate.acquire g st e m now := by
  have hlt : now < g.gUntil := by
    have hb := hact
    unfold GlobalLimitGuard.isActive at hb
    rw [Bool.and_eq_true, decide_eq_true_eq] at hb
    exact hb.2
  unfold RateGate.acquire
  rw [if_pos hact]
  have ht1 : g.gUntil ≤ now + g.remaining now := by
    unfold GlobalLimitGuard.remaining
    rw [max_eq_right (by omega)]
    omega
  rcases hbm : st.bucket_map (e, m) with _ | bid
  · simpa using ht1
  · simp only
    rcases hbk : st.buckets bid with _ | b
    · simpa using ht1
    · simp only
      by_cases hrem : b.remaining = 0
      · rw [if_pos hrem]
        have : (0:Int) ≤ max 0 (b.time_cached + b.reset_after - (now + g.remaining now)) :=
          le_max_left 0 _
        omega
      · rw [if_neg hrem]
        exact ht1

/-- Witness for claim C2: a guard with deadline 5, active at time 1, makes
acquire on an unmetered route resume no earlier than 5. -/
theorem claim_C2_witness :
    (GlobalLimitGuard.isActive ⟨true, 5⟩ 1) = true ∧
    (5:Int) ≤ RateGate.acquire ⟨true, 5⟩ RateLimiter.init "ch" "GET" 1 :=
  ⟨by decide, claim_C2_global_lockout_dominates ⟨true, 5⟩ RateLimiter.init "ch" "GET" 1 (by decide)⟩

/-- Counterexample to claim C3 as stated: two successive observe calls with
byte-identical headers, made at times 0 and 1, store different bucket
records — `time_cached` follows the clock of the latest call. -/
theorem claim_C3_counterexample :
    ((RateLimiter.init.save_response_bucket "ch" "GET"
        ⟨some "b1", 5, 3, 9, 2⟩ 0).save_response_bucket "ch" "GET"
        ⟨some "b1", 5, 3, 9, 2⟩ 1).buckets "b1" ≠
      (RateLimiter.init.save_response_bucket "ch" "GET" ⟨some "b1", 5, 3, 9, 2⟩ 0).buckets "b1" :=
  by decide

/-- Claim C3 amended: calling observe twice in succession with
byte-identical headers leaves the state exactly as a single observe at the
second call's clock reading, so every header-derived field of the stored
record is unchanged and only `time_cached` advances to the second call's
time; the record (and state) is fully unchanged when both calls read the
same clock value, i.e. when `t1 = t2`. -/
theorem claim_C3_amended (st : RateLimiter) (e m : String) (h : Header) (t1 t2 : Int) :
    (st.save_response_bucket e m h t1).save_response_bucket e m h t2 =
      st.save_response_bucket e m h t2 := by
  rcases hb : h.bucketId with _ | bid
  · rw [RateLimiter.save_response_bucket_of_no_id st e m h t1 hb]
  · apply RateLimiter.ext
    · funext r
      rw [RateLimiter.save_bucket_map_lookup _ e m h t2 bid hb,
        RateLimiter.save_bucket_map_lookup _ e m h t2 bid hb]
      by_cases hr : r = (e, m)
      · rw [if_pos hr, if_pos hr]
      · rw [if_neg hr, if_neg hr,
          RateLimiter.save_bucket_map_lookup _ e m h t1 bid hb, if_neg hr]
    · funext b
      rw [RateLimiter.save_buckets_lookup _ e m h t2 bid hb,
        RateLimiter.save_buckets_lookup _ e m h t2 bid hb]
      by_cases hbb : b = bid
      · rw [if_pos hbb, if_pos hbb]
      · rw [if_neg hbb, if_neg hbb,
          RateLimiter.save_buckets_lookup _ e m h t1 bid hb, if_neg hbb]

/-- Claim C4: for every route whose mapped bucket record has a last-known
`remaining > 0`, acquire returns without executing any sleep. -/
theorem claim_C4_positive_remaining_no_sleep (st : RateLimiter) (e m bid : String)
    (b : Bucket) (now : Int) (h1 : st.bucket_map (e, m) = some bid)
    (h2 : st.buckets bid = some b) (h3 : 0 < b.remaining) :
    st.wait_until_not_ratelimited e m now = .ret none := by
  unfold RateLimiter.wait_until_not_ratelimited
  simp only [h1, h2]
  rw [if_neg (by omega)]

/-- Witness for claim C4: a route observed with `remaining = 3` is acquired
later without any sleep. -/
theorem claim_C4_witness :
    (runCalls [.observe "ch" "GET" ⟨some "b1", 5, 3, 9, 2⟩ 0]).bucket_map ("ch", "GET")
        = some "b1" ∧
    (runCalls [.observe "ch" "GET" ⟨some "b1", 5, 3, 9, 2⟩ 0]).buckets "b1"
        = some ⟨5, 3, 9, 2, 0⟩ ∧
    (0:Int) < 3 ∧
    (runCalls [.observe "ch" "GET" ⟨some "b1", 5, 3, 9, 2⟩ 0]).wait_until_not_ratelimited
        "ch" "GET" 7 = .ret none :=
  ⟨by decide, by decide, by decide,
   claim_C4_positive_remaining_no_sleep _ "ch" "GET" "b1" ⟨5, 3, 9, 2, 0⟩ 7
     (by decide) (by decide) (by decide)⟩

/-- Counterexample to claim C5 as stated: one observe call whose headers
report `Remaining = 5` under `Limit = 2` reaches a stored record with
`remaining > limit` — the code stores the server-supplied values without any
validation or clamping. -/
theorem claim_C5_counterexample :
    (runCalls [.observe "ch" "GET" ⟨some "b1", 2, 5, 9, 2⟩ 0]).buckets "b1" =
      some ⟨2, 5, 9, 2, 0⟩ ∧ ¬ ((5:Int) ≤ 2) :=
  ⟨by decide, by decide⟩

/-- Claim C5 amended: in every state reachable by a sequence of observe and
acquire calls in which every server-supplied header already satisfies
`0 ≤ remaining ≤ limit`, every stored record satisfies
`0 ≤ remaining ≤ limit`; the store merely copies the header values, it never
creates a violation on its own. -/
theorem claim_C5_amended (cs : List Call) (hcs : ∀ c ∈ cs, c.WithinLimit) :
    (runCalls cs).RemainingWithinLimit := by
  apply foldl_step_remainingWithinLimit cs RateLimiter.init _ hcs
  intro bid b hb
  exact absurd hb (by simp [RateLimiter.init])

/-- Witness for claim C5: a single well-formed observation with
`remaining = 3 ≤ 5 = limit` yields a state within limits. -/
theorem claim_C5_witness :
    (∀ c ∈ [Call.observe "ch" "GET" ⟨some "b1", 5, 3, 9, 2⟩ 0], c.WithinLimit) ∧
    (runCalls [.observe "ch" "GET" ⟨some "b1", 5, 3, 9, 2⟩ 0]).RemainingWithinLimit := by
  have hcs : ∀ c ∈ [Call.observe "ch" "GET" ⟨some "b1", 5, 3, 9, 2⟩ 0], c.WithinLimit := by
    intro c hc
    rw [List.mem_singleton] at hc
    subst hc
    exact ⟨by decide, by decide⟩
  exact ⟨hcs, claim_C5_amended _ hcs⟩

/-- Counterexample to claim C6 as stated: against a server that rejects
attempt 0 with a 429 and would answer attempt 1 with a 200, `HttpApi.get`
raises the generic `Exception(429)` immediately — no re-acquire, no retry,
no distinct terminal rate-limit error after a budget. -/
theorem claim_C6_counterexample :
    HttpApi.get (fun n => if n = 0 then ⟨429, "limited"⟩ else ⟨200, "ok"⟩) = .error 429 ∧
    (fun n => if n = 0 then (⟨429, "limited"⟩ : Response) else ⟨200, "ok"⟩) 1 = ⟨200, "ok"⟩ :=
  ⟨rfl, rfl⟩

/-- Claim C6 amended: when a request is rejected with a 429 status,
`HttpApi.get` performs no retry at all: it surfaces the failure to the
caller on the first attempt (so nothing is silently dropped), as the same
generic `Exception(status_code)` used for every non-200 status rather than a
distinct rate-limit error. -/
theorem claim_C6_amended (server : Nat → Response) (h : (server 0).status_code = 429) :
    HttpApi.get server = .error 429 := by
  unfold HttpApi.get
  simp only []
  rw [h]
  rfl

/-- Witness for claim C6: the amended statement applied to the
429-then-200 server. -/
theorem claim_C6_witness :
    ((fun n => if n = 0 then (⟨429, "limited"⟩ : Response) else ⟨200, "ok"⟩) 0).status_code
        = 429 ∧
    HttpApi.get (fun n => if n = 0 then ⟨429, "limited"⟩ else ⟨200, "ok"⟩) = .error 429 :=
  ⟨by decide, claim_C6_amended _ (by decide)⟩

/-- Claim C7: if a response's headers carry no `X-RateLimit-Bucket` entry,
observe leaves the whole state (route mapping and every record) exactly as
it was, and acquire on any route with no bucket mapping returns immediately
without sleeping. -/
theorem claim_C7_missing_bucket_header (st : RateLimiter) (e m : String) (h : Header)
    (t : Int) (hb : h.bucket = none) (e2 m2 : String) (now : Int)
    (hun : st.bucket_map (e2, m2) = none) :
    st.save_response_bucket e m h t = st ∧
    st.wait_until_not_ratelimited e2 m2 now = .ret none := by
  constructor
  · exact st.save_response_bucket_of_no_id e m h t (by simp [Header.bucketId, hb])
  · unfold RateLimiter.wait_until_not_ratelimited
    simp only [hun]

/-- Witness for claim C7: a bucket-less header observed on the fresh state
changes nothing, and acquiring the unmapped route does not sleep. -/
theorem claim_C7_witness :
    ({ bucket := none, limit := 5, remaining := 3, reset := 9, reset_after := 2 } : Header).bucket
        = none ∧
    RateLimiter.init.bucket_map ("ch", "GET") = none ∧
    RateLimiter.init.save_response_bucket "ch" "GET"
        { bucket := none, limit := 5, remaining := 3, reset := 9, reset_after := 2 } 0
      = RateLimiter.init ∧
    RateLimiter.init.wait_until_not_ratelimited "ch" "GET" 4 = .ret none := by
  have hmain := claim_C7_missing_bucket_header RateLimiter.init "ch" "GET"
    { bucket := none, limit := 5, remaining := 3, reset := 9, reset_after := 2 } 0
    rfl "ch" "GET" 4 rfl
  exact ⟨rfl, rfl, hmain.1, hmain.2⟩

/-- Claim C8: an observe call carrying bucket id `bid` stores for `bid` a
record built from that response's headers and observation time alone — the
right-hand side does not mention the previous state, so nothing of the
previous record survives and of two successive calls for the same id the
later one's write wins entirely. -/
theorem claim_C8_full_replacement (st : RateLimiter) (e m : String) (h : Header)
    (t : Int) (bid : String) (hb : h.bucketId = some bid) :
    (st.save_response_bucket e m h t).buckets bid =
      some { limit := h.limit, remaining := h.remaining, reset := h.reset,
             reset_after := h.reset_after, time_cached := t } := by
  rw [st.save_buckets_lookup e m h t bid hb, if_pos rfl]

/-- Witness for claim C8: a second response for bucket "b1" (observed via a
different route) wipes out the record left by the first. -/
theorem claim_C8_witness :
    (({ bucket := some "b1", limit := 5, remaining := 0, reset := 9, reset_after := 3 }
        : Header)).bucketId = some "b1" ∧
    ((runCalls [.observe "ch" "GET" ⟨some "b1", 5, 4, 9, 2⟩ 0]).save_response_bucket
        "msg" "POST" { bucket := some "b1", limit := 5, remaining := 0, reset := 9,
                       reset_after := 3 } 1).buckets "b1"
      = some { limit := 5, remaining := 0, reset := 9, reset_after := 3, time_cached := 1 } :=
  ⟨by decide,
   claim_C8_full_replacement (runCalls [.observe "ch" "GET" ⟨some "b1", 5, 4, 9, 2⟩ 0])
     "msg" "POST" _ 1 "b1" (by decide)⟩

/-- Claim C9: when a second, distinct route is already mapped to the same
bucket id, an observe through the first route that records `remaining = 0`
makes the next acquire on the second route execute a sleep as well. -/
theorem claim_C9_shared_bucket_exhaustion (st : RateLimiter) (e1 m1 e2 m2 bid : String)
    (h : Header) (t now : Int) (hroutes : ((e2, m2) : Route) ≠ (e1, m1))
    (hmap2 : st.bucket_map (e2, m2) = some bid)
    (hb : h.bucketId = some bid) (hrem : h.remaining = 0) :
    (st.save_response_bucket e1 m1 h t).wait_until_not_ratelimited e2 m2 now =
      .ret (some (now - t + h.reset_after)) := by
  unfold RateLimiter.wait_until_not_ratelimited
  rw [st.save_bucket_map_lookup e1 m1 h t bid hb, if_neg hroutes]
  simp only [hmap2]
  rw [st.save_buckets_lookup e1 m1 h t bid hb, if_pos rfl]
  simp only [hrem, if_true]

/-- Witness for claim C9: route ("other","GET") shares bucket "b1" with
route ("ch","GET"); exhausting the bucket through the latter makes the
former sleep. -/
theorem claim_C9_witness :
    (("other", "GET") : Route) ≠ ("ch", "GET") ∧
    (runCalls [.observe "other" "GET" ⟨some "b1", 5, 3, 9, 2⟩ 0]).bucket_map ("other", "GET")
        = some "b1" ∧
    (({ bucket := some "b1", limit := 5, remaining := 0, reset := 9, reset_after := 2 }
        : Header)).bucketId = some "b1" ∧
    ((runCalls [.observe "other" "GET" ⟨some "b1", 5, 3, 9, 2⟩ 0]).save_response_bucket
        "ch" "GET" ⟨some "b1", 5, 0, 9, 2⟩ 1).wait_until_not_ratelimited "other" "GET" 2
      = .ret (some (2 - 1 + 2)) :=
  ⟨by decide, by decide, by decide,
   claim_C9_shared_bucket_exhaustion (runCalls [.observe "other" "GET" ⟨some "b1", 5, 3, 9, 2⟩ 0])
     "ch" "GET" "other" "GET" "b1" ⟨some "b1", 5, 0, 9, 2⟩ 1 2
     (by decide) (by decide) (by decide) (by decide)⟩

/-- Claim C10: in every state reachable by observe and acquire calls, every
bucket id stored as a value of the route mapping is a key of the record
store, and consequently acquire never hits the `KeyError` of the unguarded
`self.buckets[bucket_id]` lookup: it always returns a `ret` outcome. -/
theorem claim_C10_mapped_ids_always_stored (cs : List Call) (e m : String) (now : Int) :
    (runCalls cs).MappedIdsStored ∧
    ∃ r, (runCalls cs).wait_until_not_ratelimited e m now = .ret r := by
  refine ⟨runCalls_mappedIdsStored cs, ?_⟩
  unfold RateLimiter.wait_until_not_ratelimited
  rcases hbm : (runCalls cs).bucket_map (e, m) with _ | bid
  · exact ⟨none, rfl⟩
  · have hsome := runCalls_mappedIdsStored cs (e, m) bid hbm
    rcases hbk : (runCalls cs).buckets bid with _ | b
    · rw [hbk] at hsome
      exact absurd hsome (by simp)
    · simp only [hbk]
      by_cases hrem : b.remaining = 0
      · exact ⟨some (now - b.time_cached + b.reset_after), by rw [if_pos hrem]⟩
      · exact ⟨none, by rw [if_neg hrem]⟩

/-- Witness for claim C10: the invariant and the no-KeyError conclusion at a
concrete reachable state. -/
theorem claim_C10_witness :
    (runCalls [.observe "ch" "GET" ⟨some "b1", 5, 0, 9, 2⟩ 0]).MappedIdsStored ∧
    ∃ r, (runCalls [.observe "ch" "GET" ⟨some "b1", 5, 0, 9, 2⟩ 0]).wait_until_not_ratelimited
        "ch" "GET" 1 = .ret r :=
  claim_C10_mapped_ids_always_stored [.observe "ch" "GET" ⟨some "b1", 5, 0, 9, 2⟩ 0] "ch" "GET" 1
